import Mathlib

/-!
Verification of the coupling orchestration core of the preCICE-style
coupling library against its natural-language specification.

The C++ sources are shallowly embedded in Lean:
* `double` values are modelled as rationals (`ℚ`); the tolerance-based
  comparison helpers of `math/differences.hpp` (which is not part of the
  provided sources) are modelled from the spec as exact comparisons with an
  explicit `eps` tolerance argument;
* fallible code (`PRECICE_CHECK` / `PRECICE_ERROR`) is modelled with
  `Except String`; `PRECICE_ASSERT` statements (compiled out in release
  builds, internal invariants) are not modelled as observable failures;
* stateful classes become records with explicit state passing.
-/

namespace Precice

/-- Modelled from the spec: `math::equals(a, b, eps)` of `math/differences.hpp`
(not under the provided sources): equality of two `double`s up to the
tolerance `eps`. -/
def mathEquals (a b eps : ℚ) : Bool := decide (|a - b| ≤ eps)

/-- Modelled from the spec: `math::greater(a, b, eps)` of
`math/differences.hpp`: `a` exceeds `b` by more than `eps`. -/
def mathGreater (a b eps : ℚ) : Bool := decide (a - b > eps)

/-- Modelled from the spec: `math::greaterEquals(a, b, eps)` of
`math/differences.hpp`: `a` is at least `b` up to the tolerance `eps`. -/
def mathGreaterEquals (a b eps : ℚ) : Bool := decide (a - b ≥ -eps)

/-! ## Convergence measurement (`BaseCouplingScheme::measureConvergence`,
`BaseCouplingScheme::doImplicitStep`) -/

/-- One entry of `BaseCouplingScheme::_convergenceMeasures`
(`ConvergenceMeasureContext` of `BaseCouplingScheme.hpp`), restricted to the
fields that determine the convergence verdict.  `converged` is the value of
`convMeasure.measure->isConvergence()` after the call to `measure(...)`;
`sufficesFlag` is the `suffices` member (renamed: `suffices` is a Lean
keyword); `strict` is the `strict` member. -/
structure ConvergenceMeasureContext where
  converged : Bool
  sufficesFlag : Bool
  strict : Bool
deriving DecidableEq, Repr

/-- The loop of `BaseCouplingScheme::measureConvergence`, carrying the
accumulators `allConverged`, `oneSuffices` and `oneStrict`.  The
`PRECICE_CHECK(_iterations < _maxIterations, ...)` for a strict measure that
did not converge is the `.error` case. -/
def measureConvergenceLoop (iterations maxIterations : Int) :
    List ConvergenceMeasureContext → Bool → Bool → Bool →
    Except String (Bool × Bool × Bool)
  | [], allConverged, oneSuffices, oneStrict =>
    .ok (allConverged, oneSuffices, oneStrict)
  | convMeasure :: rest, allConverged, oneSuffices, oneStrict =>
    if !convMeasure.converged then
      if convMeasure.strict then
        if iterations < maxIterations then
          measureConvergenceLoop iterations maxIterations rest false oneSuffices true
        else
          .error "The strict convergence measure did not converge within the maximum allowed iterations, which terminates the simulation."
      else
        measureConvergenceLoop iterations maxIterations rest false oneSuffices oneStrict
    else if convMeasure.sufficesFlag then
      measureConvergenceLoop iterations maxIterations rest allConverged true oneStrict
    else
      measureConvergenceLoop iterations maxIterations rest allConverged oneSuffices oneStrict

/-- Embeds `BaseCouplingScheme::measureConvergence` (cplscheme sources, lines
626-671): returns `allConverged || (oneSuffices && not oneStrict)`; logging
side effects are not modelled. -/
def measureConvergence (iterations maxIterations : Int)
    (measures : List ConvergenceMeasureContext) : Except String Bool := do
  let (allConverged, oneSuffices, oneStrict) ←
    measureConvergenceLoop iterations maxIterations measures true false false
  pure (allConverged || (oneSuffices && !oneStrict))

/-- Embeds `BaseCouplingScheme::doImplicitStep` (cplscheme sources, lines 770-795),
restricted to the computation of `_hasConverged`.  The data-buffer side
effects (`storeExtrapolationData`, acceleration calls,
`newConvergenceMeasurements`, `moveToNextWindow`, `storeIteration`) do not
influence the returned verdict and are not modelled. -/
def doImplicitStep (iterations maxIterations : Int)
    (measures : List ConvergenceMeasureContext) : Except String Bool := do
  let hasConverged ← measureConvergence iterations maxIterations measures
  if iterations = maxIterations then
    pure true
  else
    pure hasConverged

/-- All configured measures converged. -/
def allMeasuresConverged (measures : List ConvergenceMeasureContext) : Bool :=
  measures.all (·.converged)

/-- Some measure marked `suffices` converged. -/
def someSufficientConverged (measures : List ConvergenceMeasureContext) : Bool :=
  measures.any (fun m => m.converged && m.sufficesFlag)

/-- Some strict measure did not converge. -/
def someStrictUnconverged (measures : List ConvergenceMeasureContext) : Bool :=
  measures.any (fun m => m.strict && !m.converged)

lemma measureConvergenceLoop_ok (iterations maxIterations : Int)
    (measures : List ConvergenceMeasureContext)
    (h : someStrictUnconverged measures = false ∨ iterations < maxIterations)
    (a s st : Bool) :
    measureConvergenceLoop iterations maxIterations measures a s st =
      .ok (a && allMeasuresConverged measures,
           s || someSufficientConverged measures,
           st || someStrictUnconverged measures) := by
  induction measures generalizing a s st with
  | nil =>
    simp [measureConvergenceLoop, allMeasuresConverged, someSufficientConverged,
      someStrictUnconverged]
  | cons m rest ih =>
    have hrest : someStrictUnconverged rest = false ∨ iterations < maxIterations := by
      rcases h with h | h
      · left
        simp only [someStrictUnconverged, List.any_cons, Bool.or_eq_false_iff] at h
        exact h.2
      · right; exact h
    rcases hm : m.converged with _ | _
    · rcases hs : m.strict with _ | _
      · simp only [measureConvergenceLoop, hm, hs, Bool.not_false, if_pos rfl, if_neg,
          Bool.false_eq_true, not_false_iff]
        rw [ih hrest]
        simp [allMeasuresConverged, someSufficientConverged, someStrictUnconverged, hm, hs]
      · have hlt : iterations < maxIterations := by
          rcases h with h | h
          · exfalso
            simp [someStrictUnconverged, hm, hs] at h
          · exact h
        simp only [measureConvergenceLoop, hm, hs, Bool.not_false, if_pos rfl, if_pos hlt]
        rw [ih hrest]
        simp [allMeasuresConverged, someSufficientConverged, someStrictUnconverged, hm, hs]
    · rcases hsf : m.sufficesFlag with _ | _
      · simp only [measureConvergenceLoop, hm, hsf, Bool.not_true, Bool.false_eq_true,
          if_neg, not_false_iff, if_neg]
        rw [ih hrest]
        simp [allMeasuresConverged, someSufficientConverged, someStrictUnconverged, hm, hsf]
      · simp only [measureConvergenceLoop, hm, hsf, Bool.not_true, Bool.false_eq_true,
          if_neg, not_false_iff, if_pos rfl]
        rw [ih hrest]
        simp [allMeasuresConverged, someSufficientConverged, someStrictUnconverged, hm, hsf]

lemma measureConvergenceLoop_error (iterations maxIterations : Int)
    (measures : List ConvergenceMeasureContext)
    (hit : ¬ iterations < maxIterations)
    (h : someStrictUnconverged measures = true)
    (a s st : Bool) :
    ∃ msg, measureConvergenceLoop iterations maxIterations measures a s st =
      .error msg := by
  induction measures generalizing a s st with
  | nil => simp [someStrictUnconverged] at h
  | cons m rest ih =>
    rcases hm : m.converged with _ | _
    · rcases hs : m.strict with _ | _
      · have hrest : someStrictUnconverged rest = true := by
          simpa [someStrictUnconverged, hm, hs] using h
        simp only [measureConvergenceLoop, hm, hs, Bool.not_false, if_pos rfl, if_neg,
          Bool.false_eq_true, not_false_iff]
        exact ih hrest _ _ _
      · simp only [measureConvergenceLoop, hm, hs, Bool.not_false, if_pos rfl, if_neg hit]
        exact ⟨_, rfl⟩
    · have hrest : someStrictUnconverged rest = true := by
        simpa [someStrictUnconverged, hm] using h
      rcases hsf : m.sufficesFlag with _ | _
      · simp only [measureConvergenceLoop, hm, hsf, Bool.not_true, Bool.false_eq_true,
          if_neg, not_false_iff]
        exact ih hrest _ _ _
      · simp only [measureConvergenceLoop, hm, hsf, Bool.not_true, Bool.false_eq_true,
          if_neg, not_false_iff, if_pos rfl]
        exact ih hrest _ _ _

/-- C1: `doImplicitStep` reports convergence iff all configured convergence
measures converged, or at least one `suffices` measure converged while no
strict measure failed, or the iteration counter equals `_maxIterations`
(forced convergence); a strict measure that has not converged when
`_iterations` equals `_maxIterations` instead aborts with a fatal error. -/
theorem doImplicitStep_convergence_spec (iterations maxIterations : Int)
    (measures : List ConvergenceMeasureContext)
    (hle : iterations ≤ maxIterations) :
    (someStrictUnconverged measures = true ∧ iterations = maxIterations →
      ∃ msg, doImplicitStep iterations maxIterations measures = .error msg) ∧
    (¬ (someStrictUnconverged measures = true ∧ iterations = maxIterations) →
      doImplicitStep iterations maxIterations measures =
        .ok (allMeasuresConverged measures ||
             (someSufficientConverged measures && !someStrictUnconverged measures) ||
             decide (iterations = maxIterations))) := by
  constructor
  · rintro ⟨hstrict, heq⟩
    have hnl : ¬ iterations < maxIterations := by omega
    obtain ⟨msg, hmsg⟩ :=
      measureConvergenceLoop_error iterations maxIterations measures hnl hstrict true false false
    refine ⟨msg, ?_⟩
    unfold doImplicitStep measureConvergence
    rw [hmsg]
    rfl
  · intro hno
    have h : someStrictUnconverged measures = false ∨ iterations < maxIterations := by
      by_cases heq : iterations = maxIterations
      · left
        rcases hsu : someStrictUnconverged measures with _ | _
        · rfl
        · exact absurd ⟨hsu, heq⟩ hno
      · right; omega
    rw [doImplicitStep, measureConvergence,
      measureConvergenceLoop_ok iterations maxIterations measures h true false false]
    by_cases heq : iterations = maxIterations
    · have hsu : someStrictUnconverged measures = false := by
        rcases hsu : someStrictUnconverged measures with _ | _
        · rfl
        · exact absurd ⟨hsu, heq⟩ hno
      simp [heq, hsu]
    · simp [heq]

/-- Witness for C1 at a concrete input: one strict, unconverged measure at
`_iterations = _maxIterations = 2` aborts. -/
theorem doImplicitStep_convergence_spec_witness :
    (2 : Int) ≤ 2 ∧
      ∃ msg, doImplicitStep 2 2 [⟨false, false, true⟩] = .error msg :=
  ⟨by decide,
    (doImplicitStep_convergence_spec 2 2 [⟨false, false, true⟩] (by decide)).1
      ⟨by decide, rfl⟩⟩

/-! ## The `BaseCouplingScheme` time/window state machine -/

/-- Embeds `BaseCouplingScheme::CouplingMode`. -/
inductive CouplingMode
  | Explicit
  | Implicit
  | Undefined
deriving DecidableEq, Repr

/-- Embeds `CouplingScheme::Action` (the wire constants `InitializeData`,
`WriteCheckpoint`, `ReadCheckpoint`). -/
inductive Action
  | initializeData
  | readCheckpoint
  | writeCheckpoint
deriving DecidableEq, Repr

/-- Stand-in for `std::numeric_limits<double>::max()`. -/
def doubleMax : ℚ := 2 ^ 1024

/-- The fields of `BaseCouplingScheme` that drive the time/window/iteration
state machine.  The sentinel values `UNDEFINED_TIME`,
`UNDEFINED_TIME_WINDOWS` and `UNDEFINED_TIME_WINDOW_SIZE` (their definition
is not under the provided sources; the spec describes them as "not set") are
encoded as `none`.  The `std::set<Action>` members are encoded as
duplicate-free lists. -/
structure BCSState where
  couplingMode : CouplingMode
  maxTime : Option ℚ
  time : ℚ
  maxTimeWindows : Option Int
  timeWindows : Int
  timeWindowSize : Option ℚ
  computedTimeWindowPart : ℚ
  maxIterations : Int
  iterations : Int
  totalIterations : Int
  isTimeWindowComplete : Bool
  hasConverged : Bool
  hasDataBeenReceived : Bool
  requiredActions : List Action
  fulfilledActions : List Action
  eps : ℚ
deriving Repr

/-- Embeds `BaseCouplingScheme::hasTimeWindowSize`. -/
def hasTimeWindowSize (s : BCSState) : Bool :=
  s.timeWindowSize.isSome

/-- Embeds `BaseCouplingScheme::getNextTimeStepMaxSize` (cplscheme sources, lines
450-461). -/
def getNextTimeStepMaxSize (s : BCSState) : ℚ :=
  match s.timeWindowSize with
  | some w => w - s.computedTimeWindowPart
  | none =>
    match s.maxTime with
    | none => doubleMax
    | some mt => mt - s.time

/-- Embeds `BaseCouplingScheme::isCouplingOngoing` (cplscheme sources, lines
463-468). -/
def isCouplingOngoing (s : BCSState) : Bool :=
  let timeLeft :=
    match s.maxTime with
    | some mt => mathGreater mt s.time s.eps
    | none => true
  let timestepsLeft :=
    match s.maxTimeWindows with
    | some mw => decide (mw ≥ s.timeWindows)
    | none => true
  timeLeft && timestepsLeft

/-- Embeds `BaseCouplingScheme::reachedEndOfTimeWindow` (cplscheme sources, lines
726-729). -/
def reachedEndOfTimeWindow (s : BCSState) : Bool :=
  mathEquals (getNextTimeStepMaxSize s) 0 s.eps || !(hasTimeWindowSize s)

/-- Embeds `BaseCouplingScheme::isImplicitCouplingScheme`. -/
def isImplicitCouplingScheme (s : BCSState) : Bool :=
  decide (s.couplingMode = CouplingMode.Implicit)

/-- Embeds `BaseCouplingScheme::requireAction`: insertion into the set
`_requiredActions`. -/
def requireAction (action : Action) (s : BCSState) : BCSState :=
  if action ∈ s.requiredActions then s
  else { s with requiredActions := s.requiredActions ++ [action] }

/-- Embeds `BaseCouplingScheme::checkCompletenessRequiredActions` (cplscheme
sources, lines 552-573): errors when a required action is unfulfilled,
otherwise clears both sets. -/
def checkCompletenessRequiredActions (s : BCSState) : Except String BCSState :=
  if s.requiredActions.all (fun a => s.fulfilledActions.contains a) then
    .ok { s with requiredActions := [], fulfilledActions := [] }
  else
    .error "The required actions are not fulfilled."

/-- Embeds `BaseCouplingScheme::addComputedTime` (cplscheme sources, lines
381-399). -/
def addComputedTime (timeToAdd : ℚ) (s : BCSState) : Except String BCSState :=
  let s := { s with
    computedTimeWindowPart := s.computedTimeWindowPart + timeToAdd,
    time := s.time + timeToAdd }
  let valid := mathGreaterEquals (getNextTimeStepMaxSize s) 0 s.eps
  if valid then .ok s
  else .error "The time step size given to preCICE in advance exceeds the maximum allowed time step size in the remaining of this time window."

/-- Embeds `BaseCouplingScheme::secondExchange` (cplscheme sources, lines 292-342).
The pure-virtual `exchangeSecondData` (data transport plus, on the
measuring participant, `doImplicitStep`) is passed in as a state
transformer.  TXT-writer output and `PRECICE_ASSERT`s are not modelled. -/
def secondExchange (exchangeSecondData : BCSState → BCSState) (s : BCSState) :
    Except String BCSState :=
  match checkCompletenessRequiredActions s with
  | .error msg => .error msg
  | .ok s0 =>
  if reachedEndOfTimeWindow s0 then
    let s1 := exchangeSecondData s0
    let s2 :=
      if isImplicitCouplingScheme s1 then
        let s3 :=
          if !s1.hasConverged then
            { (requireAction .readCheckpoint s1) with
                time := s1.time - s1.computedTimeWindowPart,
                timeWindows := s1.timeWindows - 1 }
          else
            let t := { s1 with isTimeWindowComplete := true }
            if isCouplingOngoing t then requireAction .writeCheckpoint t else t
        let s4 := { s3 with totalIterations := s3.totalIterations + 1 }
        if !s4.hasConverged then { s4 with iterations := s4.iterations + 1 }
        else { s4 with iterations := 1 }
      else { s1 with isTimeWindowComplete := true }
    .ok { s2 with computedTimeWindowPart := 0 }
  else
    .ok s0

/-- C2: for every implicit time-window iteration that reaches the end of the
window but does not converge, `secondExchange` requires exactly one
`ReadCheckpoint` action, rewinds `_time` by `_computedTimeWindowPart` so
that `_time` returns to its value at the start of the window, and
decrements the time-window counter by one.  The hypotheses on
`exchangeSecondData` express that the data exchange reports
non-convergence and does not touch the time bookkeeping or the action
sets. -/
theorem secondExchange_nonconvergent_spec
    (exchangeSecondData : BCSState → BCSState) (s : BCSState) (windowStart : ℚ)
    (hact : s.requiredActions.all (fun a => s.fulfilledActions.contains a) = true)
    (hend : reachedEndOfTimeWindow s = true)
    (hstart : s.time = windowStart + s.computedTimeWindowPart)
    (e : BCSState)
    (he : e = exchangeSecondData { s with requiredActions := [], fulfilledActions := [] })
    (heMode : e.couplingMode = CouplingMode.Implicit)
    (heConv : e.hasConverged = false)
    (heTime : e.time = s.time)
    (hePart : e.computedTimeWindowPart = s.computedTimeWindowPart)
    (heWin : e.timeWindows = s.timeWindows)
    (heReq : e.requiredActions = []) :
    ∃ s', secondExchange exchangeSecondData s = .ok s' ∧
      s'.requiredActions.count Action.readCheckpoint = 1 ∧
      s'.time = s.time - s.computedTimeWindowPart ∧
      s'.time = windowStart ∧
      s'.timeWindows = s.timeWindows - 1 := by
  have h0 : checkCompletenessRequiredActions s =
      .ok { s with requiredActions := [], fulfilledActions := [] } := by
    unfold checkCompletenessRequiredActions
    rw [if_pos hact]
  have hend0 : reachedEndOfTimeWindow
      { s with requiredActions := [], fulfilledActions := [] } = true := hend
  have hImpl : isImplicitCouplingScheme e = true := by
    simp [isImplicitCouplingScheme, heMode]
  have hrun : secondExchange exchangeSecondData s =
      .ok { e with
        requiredActions := [Action.readCheckpoint],
        time := e.time - e.computedTimeWindowPart,
        timeWindows := e.timeWindows - 1,
        totalIterations := e.totalIterations + 1,
        iterations := e.iterations + 1,
        computedTimeWindowPart := 0 } := by
    unfold secondExchange
    rw [h0]
    dsimp only
    rw [if_pos hend0, ← he, if_pos hImpl, heConv]
    unfold requireAction
    rw [heReq]
    simp [heConv]
  refine ⟨_, hrun, ?_, ?_, ?_, ?_⟩
  · simp
  · simp [heTime, hePart]
  · simp [heTime, hePart, hstart]
  · simp [heWin]

/-- Witness for C2 at a concrete state. -/
theorem secondExchange_nonconvergent_spec_witness :
    ∃ s', secondExchange
        (fun t => { t with hasConverged := false, hasDataBeenReceived := true })
        { couplingMode := .Implicit, maxTime := some 10, time := 3,
          maxTimeWindows := none, timeWindows := 3,
          timeWindowSize := some 1, computedTimeWindowPart := 1,
          maxIterations := 5, iterations := 2, totalIterations := 4,
          isTimeWindowComplete := false, hasConverged := true,
          hasDataBeenReceived := false, requiredActions := [],
          fulfilledActions := [], eps := 1 / 100 } = .ok s' ∧
      s'.requiredActions.count Action.readCheckpoint = 1 ∧
      s'.time = 3 - 1 ∧
      s'.time = 2 ∧
      s'.timeWindows = 3 - 1 :=
  secondExchange_nonconvergent_spec
    (fun t => { t with hasConverged := false, hasDataBeenReceived := true })
    { couplingMode := .Implicit, maxTime := some 10, time := 3,
      maxTimeWindows := none, timeWindows := 3,
      timeWindowSize := some 1, computedTimeWindowPart := 1,
      maxIterations := 5, iterations := 2, totalIterations := 4,
      isTimeWindowComplete := false, hasConverged := true,
      hasDataBeenReceived := false, requiredActions := [],
      fulfilledActions := [], eps := 1 / 100 }
    2 (by decide)
    (by norm_num [reachedEndOfTimeWindow, mathEquals, getNextTimeStepMaxSize,
      hasTimeWindowSize])
    (by norm_num) _ rfl rfl rfl rfl rfl rfl rfl

/-- C3: `addComputedTime(dt)` adds `dt` to both `_computedTimeWindowPart`
and `_time`, and fails exactly when the accumulated part exceeds the time
window size by more than `ε = 10^(-validDigits)`;
`reachedEndOfTimeWindow()` returns `true` iff the remaining step size
equals zero within `ε` or no time window size is set. -/
theorem addComputedTime_reachedEnd_spec (s : BCSState) (timeToAdd w : ℚ)
    (validDigits : ℕ)
    (hw : s.timeWindowSize = some w)
    (heps : s.eps = (1 / 10) ^ validDigits) :
    ((∃ msg, addComputedTime timeToAdd s = .error msg) ↔
      s.computedTimeWindowPart + timeToAdd > w + (1 / 10 : ℚ) ^ validDigits) ∧
    (∀ s', addComputedTime timeToAdd s = .ok s' →
      s'.computedTimeWindowPart = s.computedTimeWindowPart + timeToAdd ∧
      s'.time = s.time + timeToAdd) ∧
    (∀ t : BCSState, reachedEndOfTimeWindow t = true ↔
      (|getNextTimeStepMaxSize t| ≤ t.eps ∨ t.timeWindowSize = none)) := by
  refine ⟨?_, ?_, ?_⟩
  · rw [← heps]
    unfold addComputedTime
    simp only [getNextTimeStepMaxSize, hw, mathGreaterEquals]
    constructor
    · rintro ⟨msg, hmsg⟩
      by_cases hvalid : w - (s.computedTimeWindowPart + timeToAdd) - 0 ≥ -s.eps
      · rw [if_pos (by simpa using hvalid)] at hmsg
        exact absurd hmsg (by simp)
      · linarith [not_le.mp hvalid]
    · intro hgt
      refine ⟨_, if_neg ?_⟩
      simp only [decide_eq_true_eq]
      intro hge
      linarith
  · intro s' hs'
    unfold addComputedTime at hs'
    by_cases hvalid : mathGreaterEquals
        (getNextTimeStepMaxSize { s with
          computedTimeWindowPart := s.computedTimeWindowPart + timeToAdd,
          time := s.time + timeToAdd }) 0 s.eps = true
    · rw [if_pos hvalid] at hs'
      cases hs'
      exact ⟨rfl, rfl⟩
    · rw [if_neg hvalid] at hs'
      exact absurd hs' (by simp)
  · intro t
    unfold reachedEndOfTimeWindow mathEquals hasTimeWindowSize
    rcases ht : t.timeWindowSize with _ | wt <;>
      simp [ht, Option.isSome]

/-- Witness for C3 at a concrete state: adding `dt = 2` to a window of size
`1` with `ε = 10^(-2)` fails. -/
theorem addComputedTime_reachedEnd_spec_witness :
    (({ couplingMode := .Implicit, maxTime := some 10, time := 3,
        maxTimeWindows := none, timeWindows := 3,
        timeWindowSize := some 1, computedTimeWindowPart := 0,
        maxIterations := 5, iterations := 2, totalIterations := 4,
        isTimeWindowComplete := false, hasConverged := true,
        hasDataBeenReceived := false, requiredActions := [],
        fulfilledActions := [], eps := (1 / 10) ^ 2 } : BCSState).timeWindowSize
          = some 1) ∧
    (∃ msg, addComputedTime 2
      { couplingMode := .Implicit, maxTime := some 10, time := 3,
        maxTimeWindows := none, timeWindows := 3,
        timeWindowSize := some 1, computedTimeWindowPart := 0,
        maxIterations := 5, iterations := 2, totalIterations := 4,
        isTimeWindowComplete := false, hasConverged := true,
        hasDataBeenReceived := false, requiredActions := [],
        fulfilledActions := [], eps := (1 / 10) ^ 2 } = .error msg) :=
  ⟨rfl,
    ((addComputedTime_reachedEnd_spec _ 2 1 2 rfl rfl).1).mpr (by norm_num)⟩

/-! ## Time-sampled data readers
(`SolverInterfaceImpl::readScalarDataImpl`,
`SolverInterfaceImpl::readBlockScalarDataImpl`) -/

/-- The part of `ReadDataContext` visible to the readers:
`getDataDimensions()` and the waveform sampler `sampleWaveformAt`
(a buffer of one entry per vertex for scalar data). -/
structure ReadDataContext where
  dataDimensions : Int
  sampleWaveformAt : ℚ → List ℚ

/-- Tail of `SolverInterfaceImpl::readScalarDataImpl` after
`normalizedReadTime` is known: value-index and data-dimension checks
followed by the waveform lookup. -/
def readScalarSample (context : ReadDataContext) (valueIndex : Int)
    (normalizedReadTime : ℚ) : Except String ℚ :=
  if valueIndex ≥ -1 then
    if context.dataDimensions = 1 then
      if 0 ≤ valueIndex ∧
          valueIndex < ((context.sampleWaveformAt normalizedReadTime).length : Int) then
        .ok ((context.sampleWaveformAt normalizedReadTime).getD valueIndex.toNat 0)
      else .error "Cannot read data from invalid Vertex ID."
    else .error "You cannot call readScalarData on the vector data type."
  else .error "Invalid value index when reading scalar data."

/-- Embeds `SolverInterfaceImpl::readScalarDataImpl` (lines 1740-1777).
`finalizedState` is `_state == State::Finalized`; `windowSize` is
`_couplingScheme->getTimeWindowSize()` when
`_couplingScheme->hasTimeWindowSize()` and `none` otherwise (the
participant sets the time window size through the first-participant
method); `remainder` is `_couplingScheme->getThisTimeWindowRemainder()`. -/
def readScalarDataImpl (finalizedState : Bool) (windowSize : Option ℚ)
    (remainder : ℚ) (context : ReadDataContext) (valueIndex : Int)
    (relativeReadTime : ℚ) : Except String ℚ :=
  if finalizedState then
    .error "readScalarData cannot be called after finalize."
  else if relativeReadTime ≤ remainder then
    if relativeReadTime ≥ 0 then
      match windowSize with
      | some timeWindowSize =>
        let timeStepStart := timeWindowSize - remainder
        let readTime := timeStepStart + relativeReadTime
        readScalarSample context valueIndex (readTime / timeWindowSize)
      | none =>
        if relativeReadTime = remainder then
          readScalarSample context valueIndex 1
        else
          .error "Waveform relaxation is not allowed for solver that sets the time step size."
    else .error "readScalarData cannot sample data before the current time."
  else .error "readScalarData cannot sample data outside of current time window."

/-- Tail of `SolverInterfaceImpl::readBlockScalarDataImpl` after
`normalizedReadTime` is known: the `size == 0` early return, the
data-dimension check, and the per-index waveform lookup loop. -/
def readBlockScalarValues (context : ReadDataContext) (valueIndices : List Int)
    (normalizedReadTime : ℚ) : Except String (List ℚ) :=
  if valueIndices = [] then .ok []
  else if context.dataDimensions = 1 then
    valueIndices.mapM (fun valueIndex =>
      if 0 ≤ valueIndex ∧
          valueIndex < ((context.sampleWaveformAt normalizedReadTime).length : Int) then
        .ok ((context.sampleWaveformAt normalizedReadTime).getD valueIndex.toNat 0)
      else .error "Cannot read data to invalid Vertex ID.")
  else .error "You cannot call readBlockScalarData on the vector data type."

/-- Embeds `SolverInterfaceImpl::readBlockScalarDataImpl` (lines 1651-1691). -/
def readBlockScalarDataImpl (finalizedState : Bool) (windowSize : Option ℚ)
    (remainder : ℚ) (context : ReadDataContext) (valueIndices : List Int)
    (relativeReadTime : ℚ) : Except String (List ℚ) :=
  if finalizedState then
    .error "readBlockScalarData cannot be called after finalize."
  else if relativeReadTime ≤ remainder then
    if relativeReadTime ≥ 0 then
      match windowSize with
      | some timeWindowSize =>
        let timeStepStart := timeWindowSize - remainder
        let readTime := timeStepStart + relativeReadTime
        readBlockScalarValues context valueIndices (readTime / timeWindowSize)
      | none =>
        if relativeReadTime = remainder then
          readBlockScalarValues context valueIndices 1
        else
          .error "Waveform relaxation is not allowed for solver that sets the time step size."
    else .error "readBlockScalarData cannot sample data before the current time."
  else .error "readBlockScalarData cannot sample data outside of current time window."

lemma readScalarSample_ok {context : ReadDataContext} {valueIndex : Int}
    {t : ℚ} {v : ℚ} (h : readScalarSample context valueIndex t = .ok v) :
    v = (context.sampleWaveformAt t).getD valueIndex.toNat 0 := by
  unfold readScalarSample at h
  split_ifs at h
  · cases h
    rfl

lemma mapM_lookup_ok {g : Int → ℚ} {P : Int → Prop} [DecidablePred P]
    {e : String} {l : List Int} {vs : List ℚ}
    (h : l.mapM (fun i => if P i then Except.ok (g i) else Except.error e) =
      .ok vs) : vs = l.map g := by
  induction l generalizing vs with
  | nil =>
    simp only [List.mapM_nil, pure, Except.pure, Except.ok.injEq] at h
    simp [← h]
  | cons a l ih =>
    rw [List.mapM_cons] at h
    by_cases hp : P a
    · rw [if_pos hp] at h
      rcases hrest : l.mapM (fun i => if P i then Except.ok (g i)
          else Except.error e) with msg | ws
      · rw [hrest] at h
        exact absurd h (by simp [Bind.bind, Except.bind])
      · rw [hrest] at h
        simp only [Bind.bind, Except.bind, pure, Except.pure,
          Except.ok.injEq] at h
        rw [← h, List.map_cons, ih hrest]
    · rw [if_neg hp] at h
      exact absurd h (by simp [Bind.bind, Except.bind])

lemma readBlockScalarValues_ok {context : ReadDataContext}
    {valueIndices : List Int} {t : ℚ} {vs : List ℚ}
    (h : readBlockScalarValues context valueIndices t = .ok vs) :
    vs = valueIndices.map
      (fun i => (context.sampleWaveformAt t).getD i.toNat 0) := by
  unfold readBlockScalarValues at h
  split_ifs at h with h0 h1
  · cases h
    simp [h0]
  · exact mapM_lookup_ok h

/-- C4: for every data read with relative sample time `τ`: the call fails
unless `0 ≤ τ ≤ r` where `r` is the remaining window length; when a window
size `W` is known, the waveform is sampled at normalized position
`(W − r + τ)/W`; when no window size is known (this participant sets the
time window size), any `τ ≠ r` fails with a user error and the sample
position is `1`.  Stated for both `readScalarDataImpl` and
`readBlockScalarDataImpl`. -/
theorem readData_sampleTime_spec (finalizedState : Bool)
    (windowSize : Option ℚ) (remainder : ℚ) (context : ReadDataContext)
    (valueIndex : Int) (valueIndices : List Int) (relativeReadTime : ℚ) :
    (¬ (0 ≤ relativeReadTime ∧ relativeReadTime ≤ remainder) →
      (∃ msg, readScalarDataImpl finalizedState windowSize remainder context
          valueIndex relativeReadTime = .error msg) ∧
      (∃ msg, readBlockScalarDataImpl finalizedState windowSize remainder
          context valueIndices relativeReadTime = .error msg)) ∧
    (∀ w, windowSize = some w →
      (∀ v, readScalarDataImpl finalizedState windowSize remainder context
          valueIndex relativeReadTime = .ok v →
        v = (context.sampleWaveformAt
          ((w - remainder + relativeReadTime) / w)).getD valueIndex.toNat 0) ∧
      (∀ vs, readBlockScalarDataImpl finalizedState windowSize remainder
          context valueIndices relativeReadTime = .ok vs →
        vs = valueIndices.map (fun i => (context.sampleWaveformAt
          ((w - remainder + relativeReadTime) / w)).getD i.toNat 0))) ∧
    (windowSize = none → relativeReadTime ≠ remainder →
      (∃ msg, readScalarDataImpl finalizedState windowSize remainder context
          valueIndex relativeReadTime = .error msg) ∧
      (∃ msg, readBlockScalarDataImpl finalizedState windowSize remainder
          context valueIndices relativeReadTime = .error msg)) ∧
    (windowSize = none →
      (∀ v, readScalarDataImpl finalizedState windowSize remainder context
          valueIndex relativeReadTime = .ok v →
        v = (context.sampleWaveformAt 1).getD valueIndex.toNat 0) ∧
      (∀ vs, readBlockScalarDataImpl finalizedState windowSize remainder
          context valueIndices relativeReadTime = .ok vs →
        vs = valueIndices.map
          (fun i => (context.sampleWaveformAt 1).getD i.toNat 0))) := by
  refine ⟨?_, ?_, ?_, ?_⟩
  · intro hrange
    unfold readScalarDataImpl readBlockScalarDataImpl
    by_cases hf : finalizedState = true
    · simp [hf]
    · replace hf : finalizedState = false := by
        rcases finalizedState with _ | _ <;> simp_all
      by_cases hle : relativeReadTime ≤ remainder
      · have h0 : ¬ relativeReadTime ≥ 0 := fun hge => hrange ⟨hge, hle⟩
        simp [hf, hle, h0]
      · simp [hf, hle]
  · rintro w rfl
    constructor
    · intro v hv
      unfold readScalarDataImpl at hv
      dsimp only at hv
      split_ifs at hv
      exact readScalarSample_ok hv
    · intro vs hvs
      unfold readBlockScalarDataImpl at hvs
      dsimp only at hvs
      split_ifs at hvs
      exact readBlockScalarValues_ok hvs
  · rintro rfl hne
    unfold readScalarDataImpl readBlockScalarDataImpl
    constructor
    · by_cases hf : finalizedState = true
      · simp [hf]
      · replace hf : finalizedState = false := by
          rcases finalizedState with _ | _ <;> simp_all
        by_cases hle : relativeReadTime ≤ remainder
        · by_cases h0 : relativeReadTime ≥ 0
          · simp [hf, hle, h0, hne]
          · simp [hf, hle, h0]
        · simp [hf, hle]
    · by_cases hf : finalizedState = true
      · simp [hf]
      · replace hf : finalizedState = false := by
          rcases finalizedState with _ | _ <;> simp_all
        by_cases hle : relativeReadTime ≤ remainder
        · by_cases h0 : relativeReadTime ≥ 0
          · simp [hf, hle, h0, hne]
          · simp [hf, hle, h0]
        · simp [hf, hle]
  · rintro rfl
    constructor
    · intro v hv
      unfold readScalarDataImpl at hv
      split_ifs at hv
      exact readScalarSample_ok hv
    · intro vs hvs
      unfold readBlockScalarDataImpl at hvs
      split_ifs at hvs
      exact readBlockScalarValues_ok hvs

/-- Witness for C4 at a concrete input: with no window size (first
participant sets the step size), `τ = 0 ≠ r = 1` fails. -/
theorem readData_sampleTime_spec_witness :
    ∃ msg, readScalarDataImpl false none 1 ⟨1, fun _ => [5]⟩ 0 0 =
      .error msg :=
  ((readData_sampleTime_spec false none 1 ⟨1, fun _ => [5]⟩ 0 [] 0).2.2.1
    rfl (by norm_num)).1

/-! ## Mesh vertex creation (`SolverInterfaceImpl::setMeshVertices`,
`SolverInterfaceImpl::getMeshVertexSize`) -/

/-- A mesh vertex: the auto-assigned integer id plus coordinates. -/
structure Vertex where
  id : Int
  coords : List ℚ
deriving Repr

/-- The vertex store of `mesh::Mesh`. -/
structure Mesh where
  vertices : List Vertex
deriving Repr

/-- Modelled from the spec: `mesh::Mesh::createVertex` is not under the
provided sources; per spec section 4.2 the created vertex receives "an
auto-assigned integer id equal to the mesh's current vertex count". -/
def createVertex (m : Mesh) (position : List ℚ) : Mesh × Int :=
  let newId : Int := m.vertices.length
  ({ vertices := m.vertices ++ [⟨newId, position⟩] }, newId)

/-- The loop of `SolverInterfaceImpl::setMeshVertices` (lines 691-709):
`ids[i] = mesh->createVertex(current).getID()` for each column of the
position matrix. -/
def setMeshVertices (m : Mesh) (positions : List (List ℚ)) :
    Mesh × List Int :=
  match positions with
  | [] => (m, [])
  | p :: rest =>
    let step := createVertex m p
    let tail := setMeshVertices step.1 rest
    (tail.1, step.2 :: tail.2)

/-- Embeds `SolverInterfaceImpl::getMeshVertexSize` (lines 638-651):
`context.mesh->vertices().size()`. -/
def getMeshVertexSize (m : Mesh) : Int :=
  m.vertices.length

lemma setMeshVertices_ids (m : Mesh) (positions : List (List ℚ)) :
    (setMeshVertices m positions).2 =
      (List.range positions.length).map
        (fun i => ((m.vertices.length + i : ℕ) : Int)) ∧
    (setMeshVertices m positions).1.vertices.length =
      m.vertices.length + positions.length := by
  induction positions generalizing m with
  | nil => simp [setMeshVertices]
  | cons p rest ih =>
    obtain ⟨ih1, ih2⟩ :=
      ih { vertices := m.vertices ++ [⟨(m.vertices.length : Int), p⟩] }
    have hstep : createVertex m p =
        ({ vertices := m.vertices ++ [⟨(m.vertices.length : Int), p⟩] },
          (m.vertices.length : Int)) := rfl
    constructor
    · simp only [setMeshVertices, hstep]
      rw [ih1, show (p :: rest).length = rest.length + 1 from rfl,
        List.range_succ_eq_map, List.map_cons, List.map_map]
      refine congrArg₂ _ (by simp) ?_
      refine List.map_congr_left fun i _ => ?_
      simp only [Function.comp_apply, List.length_append, List.length_cons,
        List.length_nil]
      exact congrArg _ (by omega)
    · simp only [setMeshVertices, hstep]
      rw [ih2]
      simp only [List.length_append, List.length_cons, List.length_nil,
        List.length_cons]
      omega

/-- C5: after `setMeshVertices(mesh, n, positions, ids)` each returned id
is unique and lies in `[old_size, old_size + n)`, and
`getMeshVertexSize(mesh)` returns `old_size + n`.  Relies on the
spec-modelled `createVertex` id assignment. -/
theorem setMeshVertices_spec (m : Mesh) (positions : List (List ℚ)) :
    (∀ id ∈ (setMeshVertices m positions).2,
      getMeshVertexSize m ≤ id ∧
      id < getMeshVertexSize m + positions.length) ∧
    (setMeshVertices m positions).2.Nodup ∧
    getMeshVertexSize (setMeshVertices m positions).1 =
      getMeshVertexSize m + positions.length := by
  obtain ⟨h1, h2⟩ := setMeshVertices_ids m positions
  refine ⟨?_, ?_, ?_⟩
  · intro id hid
    rw [h1] at hid
    simp only [List.mem_map, List.mem_range] at hid
    obtain ⟨i, hi, rfl⟩ := hid
    unfold getMeshVertexSize
    refine ⟨by push_cast; omega, by push_cast; omega⟩
  · rw [h1]
    refine List.Nodup.map ?_ (List.nodup_range _)
    intro a b hab
    simp only [Nat.cast_inj] at hab
    omega
  · unfold getMeshVertexSize
    rw [h2]
    push_cast
    ring

/-- Witness for C5 at a concrete mesh with one existing vertex and two new
positions. -/
theorem setMeshVertices_spec_witness :
    (setMeshVertices ⟨[⟨0, [5, 5]⟩]⟩ [[0, 0], [1, 1]]).2.Nodup ∧
    getMeshVertexSize (setMeshVertices ⟨[⟨0, [5, 5]⟩]⟩ [[0, 0], [1, 1]]).1 =
      1 + 2 :=
  ⟨(setMeshVertices_spec ⟨[⟨0, [5, 5]⟩]⟩ [[0, 0], [1, 1]]).2.1,
    (setMeshVertices_spec ⟨[⟨0, [5, 5]⟩]⟩ [[0, 0], [1, 1]]).2.2⟩

/-! ## Direct access region (`SolverInterfaceImpl::setMeshAccessRegion`) -/

/-- The lifecycle state of `SolverInterfaceImpl` (`_state`). -/
inductive SIState
  | constructed
  | initialized
  | finalized
deriving DecidableEq, Repr

/-- Modelled from the spec: `mesh::Mesh::expandBoundingBox` is not under
the provided sources; per spec sections 3 and 4.2 it unions
(`expand`) the provided box into the mesh's bounding box, per dimension
taking the smaller min and the larger max. -/
def expandBoundingBox (meshBB providedBB : List (ℚ × ℚ)) : List (ℚ × ℚ) :=
  List.zipWith (fun a b => (min a.1 b.1, max a.2 b.2)) meshBB providedBB

/-- Embeds `SolverInterfaceImpl::setMeshAccessRegion` (lines 1818-1850).
`meshIsUsed` is the `PRECICE_REQUIRE_MESH_USE` precondition; `st` is
`_state`; `accessRegionDefined` is the participant-wide flag
`_accessRegionDefined`; `dim` is `mesh->getDimensions()`;
`boundingBox` is the raw `[min0, max0, min1, max1, ...]` input array.
Returns the expanded mesh bounding box and the new flag. -/
def setMeshAccessRegion (meshIsUsed : Bool) (st : SIState)
    (accessRegionDefined : Bool) (dim : ℕ) (meshBB : List (ℚ × ℚ))
    (boundingBox : ℕ → ℚ) : Except String (List (ℚ × ℚ) × Bool) :=
  if !meshIsUsed then
    .error "This participant does not use the mesh."
  else if st = SIState.finalized then
    .error "setMeshAccessRegion cannot be called after finalize."
  else if st = SIState.initialized then
    .error "setMeshAccessRegion needs to be called before initialize."
  else if accessRegionDefined then
    .error "setMeshAccessRegion may only be called once."
  else if (List.range dim).all
      (fun d => decide (boundingBox (2 * d) ≤ boundingBox (2 * d + 1))) then
    .ok (expandBoundingBox meshBB
          ((List.range dim).map
            (fun d => (boundingBox (2 * d), boundingBox (2 * d + 1)))),
        true)
  else
    .error "Your bounding box is ill defined, it has a negative volume."

/-- C6: `setMeshAccessRegion` succeeds only before `initialize()` and at
most once (hence in particular at most once per mesh: a second call for
any mesh errors and a success flips `_accessRegionDefined` to `true`),
fails when any min bound exceeds the corresponding max bound, and on
success unions the given box into the mesh's bounding box. -/
theorem setMeshAccessRegion_spec (meshIsUsed : Bool) (st : SIState)
    (accessRegionDefined : Bool) (dim : ℕ) (meshBB : List (ℚ × ℚ))
    (boundingBox : ℕ → ℚ) :
    (∀ res, setMeshAccessRegion meshIsUsed st accessRegionDefined dim meshBB
        boundingBox = .ok res →
      st = SIState.constructed ∧ accessRegionDefined = false ∧
      res.2 = true) ∧
    (accessRegionDefined = true →
      ∃ msg, setMeshAccessRegion meshIsUsed st accessRegionDefined dim meshBB
        boundingBox = .error msg) ∧
    ((∃ d, d < dim ∧ boundingBox (2 * d + 1) < boundingBox (2 * d)) →
      ∃ msg, setMeshAccessRegion meshIsUsed st accessRegionDefined dim meshBB
        boundingBox = .error msg) ∧
    (∀ res, setMeshAccessRegion meshIsUsed st accessRegionDefined dim meshBB
        boundingBox = .ok res →
      res.1 = expandBoundingBox meshBB
        ((List.range dim).map
          (fun d => (boundingBox (2 * d), boundingBox (2 * d + 1))))) := by
  refine ⟨?_, ?_, ?_, ?_⟩
  · intro res hres
    unfold setMeshAccessRegion at hres
    split_ifs at hres with h1 h2 h3 h4 h5
    cases hres
    refine ⟨?_, ?_, rfl⟩
    · cases st with
      | constructed => rfl
      | initialized => exact absurd rfl h3
      | finalized => exact absurd rfl h2
    · rcases accessRegionDefined with _ | _
      · rfl
      · exact absurd rfl h4
  · rintro rfl
    unfold setMeshAccessRegion
    split_ifs <;> first
      | exact ⟨_, rfl⟩
      | simp_all
  · rintro ⟨d, hd, hbad⟩
    unfold setMeshAccessRegion
    split_ifs <;> first
      | exact ⟨_, rfl⟩
      | (rename_i hall
         exfalso
         have hbound := List.all_eq_true.mp hall d (List.mem_range.mpr hd)
         rw [decide_eq_true_eq] at hbound
         linarith)
  · intro res hres
    unfold setMeshAccessRegion at hres
    split_ifs at hres
    cases hres
    rfl

/-- Witness for C6: with `_accessRegionDefined` already set, a further call
(for any mesh) fails. -/
theorem setMeshAccessRegion_spec_witness :
    ∃ msg, setMeshAccessRegion true SIState.constructed true 2
      [(0, 1), (0, 1)] (fun _ => 0) = .error msg :=
  (setMeshAccessRegion_spec true SIState.constructed true 2
    [(0, 1), (0, 1)] (fun _ => 0)).2.1 rfl

/-! ## Partition computation order (`SolverInterfaceImpl::computePartitions`) -/

/-- The fields of `impl::MeshContext` that determine the communication and
computation order in `computePartitions`. -/
structure MeshContext where
  name : String
  provideMesh : Bool
deriving DecidableEq, Repr

instance : IsTotal MeshContext (fun a b => a.name ≤ b.name) :=
  ⟨fun a b => le_total a.name b.name⟩

instance : IsTrans MeshContext (fun a b => a.name ≤ b.name) :=
  ⟨fun _ _ _ h1 h2 => le_trans h1 h2⟩

/-- The `std::sort` by mesh name at the top of `computePartitions` (also in
`compareBoundingBoxes`), with comparator `lhs->mesh->getName() <
rhs->mesh->getName()`.  `std::sort` is specified only up to "sorted
permutation"; it is modelled by insertion sort on the reflexive closure of
the comparator. -/
def sortByMeshName (contexts : List MeshContext) : List MeshContext :=
  List.insertionSort (fun a b => a.name ≤ b.name) contexts

/-- The `std::stable_partition` over `provideMesh` in `computePartitions`:
provided contexts first, each block keeping its relative order. -/
def stablePartitionProvided (contexts : List MeshContext) : List MeshContext :=
  contexts.filter (fun c => c.provideMesh) ++
    contexts.filter (fun c => !c.provideMesh)

/-- Embeds `SolverInterfaceImpl::computePartitions` (lines 2002-2047), restricted
to the order of the two loops: the first component is the order in which
`partition->communicate()` runs, the second the order in which
`partition->compute()` runs.  `m2nUsesTwoLevel` holds
`usesTwoLevelInitialization()` for each configured m2n; any `true` entry
sets `resort = false` and skips the stable partition. -/
def computePartitionsOrders (contexts : List MeshContext)
    (m2nUsesTwoLevel : List Bool) : List MeshContext × List MeshContext :=
  let communicated := sortByMeshName contexts
  let resort := !(m2nUsesTwoLevel.any id)
  (communicated,
    if resort then stablePartitionProvided communicated else communicated)

/-- C7: `computePartitions` communicates the used meshes in ascending order
of mesh name; when no m2n channel uses two-level initialization, the
compute loop runs on the provided meshes first and then the received
meshes, both blocks in communication order (a stable reordering and a
permutation); with two-level initialization the re-sort is skipped and the
compute order equals the communication order. -/
theorem computePartitions_order_spec (contexts : List MeshContext)
    (m2nUsesTwoLevel : List Bool) :
    List.Sorted (fun a b : MeshContext => a.name ≤ b.name)
      (computePartitionsOrders contexts m2nUsesTwoLevel).1 ∧
    (computePartitionsOrders contexts m2nUsesTwoLevel).1.Perm contexts ∧
    (m2nUsesTwoLevel.any id = false →
      ∃ l1 l2, (computePartitionsOrders contexts m2nUsesTwoLevel).2 =
          l1 ++ l2 ∧
        (∀ c ∈ l1, c.provideMesh = true) ∧
        (∀ c ∈ l2, c.provideMesh = false) ∧
        l1.Sublist (computePartitionsOrders contexts m2nUsesTwoLevel).1 ∧
        l2.Sublist (computePartitionsOrders contexts m2nUsesTwoLevel).1 ∧
        (computePartitionsOrders contexts m2nUsesTwoLevel).2.Perm
          (computePartitionsOrders contexts m2nUsesTwoLevel).1) ∧
    (m2nUsesTwoLevel.any id = true →
      (computePartitionsOrders contexts m2nUsesTwoLevel).2 =
        (computePartitionsOrders contexts m2nUsesTwoLevel).1) := by
  refine ⟨?_, ?_, ?_, ?_⟩
  · exact List.sorted_insertionSort _ contexts
  · exact List.perm_insertionSort _ contexts
  · intro hno
    refine ⟨(sortByMeshName contexts).filter (fun c => c.provideMesh),
      (sortByMeshName contexts).filter (fun c => !c.provideMesh),
      ?_, ?_, ?_, ?_, ?_, ?_⟩
    · simp [computePartitionsOrders, hno, stablePartitionProvided]
    · intro c hc
      simpa using (List.mem_filter.mp hc).2
    · intro c hc
      simpa using (List.mem_filter.mp hc).2
    · exact List.filter_sublist _
    · exact List.filter_sublist _
    · simp only [computePartitionsOrders, hno, Bool.not_false, if_pos]
      exact List.filter_append_perm _ _
  · intro hyes
    simp [computePartitionsOrders, hyes]

/-- Witness for C7: two meshes, no two-level initialization. -/
theorem computePartitions_order_spec_witness :
    ∃ l1 l2,
      (computePartitionsOrders [⟨"B", false⟩, ⟨"A", true⟩] [false]).2 =
        l1 ++ l2 ∧
      (∀ c ∈ l1, c.provideMesh = true) ∧
      (∀ c ∈ l2, c.provideMesh = false) ∧
      l1.Sublist (computePartitionsOrders [⟨"B", false⟩, ⟨"A", true⟩]
        [false]).1 ∧
      l2.Sublist (computePartitionsOrders [⟨"B", false⟩, ⟨"A", true⟩]
        [false]).1 ∧
      (computePartitionsOrders [⟨"B", false⟩, ⟨"A", true⟩] [false]).2.Perm
        (computePartitionsOrders [⟨"B", false⟩, ⟨"A", true⟩] [false]).1 :=
  (computePartitions_order_spec [⟨"B", false⟩, ⟨"A", true⟩] [false]).2.2.1 rfl

/-! ## Convex quad decomposition (`SolverInterfaceImpl::setMeshQuad`,
`SolverInterfaceImpl::setMeshQuadWithEdges`) -/

/-- Squared Euclidean norm of a 3D vector.  The source compares
`(a - b).norm() <= (c - d).norm()`; for the nonnegative norms this is
equivalent to comparing the squared norms, which keeps the model inside
`ℚ`. -/
def sqNorm (v : ℚ × ℚ × ℚ) : ℚ :=
  v.1 ^ 2 + v.2.1 ^ 2 + v.2.2 ^ 2

/-- Componentwise difference of two 3D points. -/
def subv (a b : ℚ × ℚ × ℚ) : ℚ × ℚ × ℚ :=
  (a.1 - b.1, a.2.1 - b.2.1, a.2.2 - b.2.2)

/-- The triangles and diagonal created for a convex quad, with vertices
written as indices `0..3` into the canonical (chain/reordered) vertex
order `[v0, v1, v2, v3]` and edges as index pairs. -/
structure QuadDecomposition where
  diagonal : Fin 4 × Fin 4
  triangle1 : List (Fin 4 × Fin 4)
  triangle2 : List (Fin 4 × Fin 4)
deriving DecidableEq, Repr

/-- The decomposition step of `SolverInterfaceImpl::setMeshQuad` (lines
856-914) after the validity checks: `coords` are the chain vertices
`[v0, v1, v2, v3]`; the chain edges are `edges[i] = (i, i+1 mod 4)`. -/
def setMeshQuadSplit (coords : Fin 4 → ℚ × ℚ × ℚ) : QuadDecomposition :=
  let distance1 := sqNorm (subv (coords 0) (coords 2))
  let distance2 := sqNorm (subv (coords 1) (coords 3))
  if distance1 ≤ distance2 then
    { diagonal := (0, 2),
      triangle1 := [(3, 0), (0, 1), (0, 2)],
      triangle2 := [(1, 2), (2, 3), (0, 2)] }
  else
    { diagonal := (1, 3),
      triangle1 := [(0, 1), (1, 2), (1, 3)],
      triangle2 := [(2, 3), (3, 0), (1, 3)] }

/-- The decomposition step of `SolverInterfaceImpl::setMeshQuadWithEdges`
(lines 916-976) after the validity checks, over the reordered vertices
`[v0, v1, v2, v3]` with outer edges `edge i = (i, i+1 mod 4)`. -/
def setMeshQuadWithEdgesSplit (coords : Fin 4 → ℚ × ℚ × ℚ) :
    QuadDecomposition :=
  let distance1 := sqNorm (subv (coords 0) (coords 2))
  let distance2 := sqNorm (subv (coords 1) (coords 3))
  if distance1 ≤ distance2 then
    { diagonal := (0, 2),
      triangle1 := [(0, 1), (1, 2), (0, 2)],
      triangle2 := [(2, 3), (3, 0), (0, 2)] }
  else
    { diagonal := (1, 3),
      triangle1 := [(3, 0), (0, 1), (1, 3)],
      triangle2 := [(1, 2), (2, 3), (1, 3)] }

/-- C8: for every valid convex quad, with `d02`, `d13` the diagonal
lengths of the canonical vertex order, both `setMeshQuad` and
`setMeshQuadWithEdges` split along diagonal `(v0, v2)` when
`d02 ≤ d13` (including the equality tie-break) and along `(v1, v3)`
otherwise; in both decompositions each triangle contains the chosen
diagonal, and each of the four outer edges belongs to exactly one
triangle. -/
theorem setMeshQuad_diagonal_spec (coords : Fin 4 → ℚ × ℚ × ℚ) :
    (sqNorm (subv (coords 0) (coords 2)) ≤
        sqNorm (subv (coords 1) (coords 3)) →
      (setMeshQuadSplit coords).diagonal = (0, 2) ∧
      (setMeshQuadWithEdgesSplit coords).diagonal = (0, 2)) ∧
    (¬ sqNorm (subv (coords 0) (coords 2)) ≤
        sqNorm (subv (coords 1) (coords 3)) →
      (setMeshQuadSplit coords).diagonal = (1, 3) ∧
      (setMeshQuadWithEdgesSplit coords).diagonal = (1, 3)) ∧
    (∀ q ∈ [setMeshQuadSplit coords, setMeshQuadWithEdgesSplit coords],
      q.diagonal ∈ q.triangle1 ∧ q.diagonal ∈ q.triangle2 ∧
      ∀ e ∈ ([(0, 1), (1, 2), (2, 3), (3, 0)] : List (Fin 4 × Fin 4)),
        (q.triangle1 ++ q.triangle2).count e = 1) := by
  by_cases hle : sqNorm (subv (coords 0) (coords 2)) ≤
      sqNorm (subv (coords 1) (coords 3))
  · have h1 : setMeshQuadSplit coords =
        { diagonal := (0, 2),
          triangle1 := [(3, 0), (0, 1), (0, 2)],
          triangle2 := [(1, 2), (2, 3), (0, 2)] } := by
      unfold setMeshQuadSplit
      rw [if_pos hle]
    have h2 : setMeshQuadWithEdgesSplit coords =
        { diagonal := (0, 2),
          triangle1 := [(0, 1), (1, 2), (0, 2)],
          triangle2 := [(2, 3), (3, 0), (0, 2)] } := by
      unfold setMeshQuadWithEdgesSplit
      rw [if_pos hle]
    refine ⟨fun _ => ⟨by rw [h1], by rw [h2]⟩, fun h => absurd hle h, ?_⟩
    rw [h1, h2]
    decide
  · have h1 : setMeshQuadSplit coords =
        { diagonal := (1, 3),
          triangle1 := [(0, 1), (1, 2), (1, 3)],
          triangle2 := [(2, 3), (3, 0), (1, 3)] } := by
      unfold setMeshQuadSplit
      rw [if_neg hle]
    have h2 : setMeshQuadWithEdgesSplit coords =
        { diagonal := (1, 3),
          triangle1 := [(3, 0), (0, 1), (1, 3)],
          triangle2 := [(1, 2), (2, 3), (1, 3)] } := by
      unfold setMeshQuadWithEdgesSplit
      rw [if_neg hle]
    refine ⟨fun h => absurd h hle, fun _ => ⟨by rw [h1], by rw [h2]⟩, ?_⟩
    rw [h1, h2]
    decide

/-- The unit square in the `z = 0` plane, used as the C8 witness quad. -/
def unitSquare : Fin 4 → ℚ × ℚ × ℚ
  | 0 => (0, 0, 0)
  | 1 => (1, 0, 0)
  | 2 => (1, 1, 0)
  | 3 => (0, 1, 0)

/-- Witness for C8: the unit square has equal diagonals; the tie-break
splits along `(v0, v2)`. -/
theorem setMeshQuad_diagonal_spec_witness :
    (setMeshQuadSplit unitSquare).diagonal = (0, 2) ∧
    (setMeshQuadWithEdgesSplit unitSquare).diagonal = (0, 2) :=
  (setMeshQuad_diagonal_spec unitSquare).1
    (by norm_num [unitSquare, sqNorm, subv])

/-! ## Intra-participant timestep synchronization
(`SolverInterfaceImpl::advance`, `SolverInterfaceImpl::syncTimestep`) -/

/-- The guard around the `syncTimestep` call in
`SolverInterfaceImpl::advance` (lines 409-414): the call sits inside
`#ifndef NDEBUG` and runs only `if (utils::IntraComm::isParallel())`.
Returns whether the synchronization runs in this `advance`. -/
def advanceSyncsTimestep (ndebugDefined isParallel : Bool) : Bool :=
  !ndebugDefined && isParallel

/-- Primary-rank side of `SolverInterfaceImpl::syncTimestep`
(lines 2164-2179): receive one `dt` per secondary rank and check
`math::equals(dt, computedTimestepLength)` (default tolerance `eps`,
modelled from the spec since `math/differences.hpp` is not under the
provided sources). -/
def syncTimestepPrimary (eps computedTimestepLength : ℚ)
    (receivedDts : List ℚ) : Except String Unit :=
  match receivedDts with
  | [] => .ok ()
  | dt :: rest =>
    if mathEquals dt computedTimestepLength eps then
      syncTimestepPrimary eps computedTimestepLength rest
    else
      .error "Found ambiguous values for the timestep length passed to preCICE in advance."

/-- Secondary-rank side of `SolverInterfaceImpl::syncTimestep`: the single
send of `computedTimestepLength` to rank `0`. -/
def syncTimestepSecondary (computedTimestepLength : ℚ) : List (ℚ × Nat) :=
  [(computedTimestepLength, 0)]

/-- C9 counterexample: the claim says the synchronization happens "in every
advance(dt) of a parallel participant", but the `syncTimestep` call in
`advance` is compiled only when `NDEBUG` is not defined; in a release
build (`NDEBUG` defined) no synchronization happens even for a parallel
participant. -/
theorem advance_syncTimestep_counterexample :
    advanceSyncsTimestep true true = false := rfl

/-- C9 (amended): in a build with assertions enabled (`NDEBUG` not
defined), every `advance(dt)` of a parallel participant synchronizes the
timestep: each secondary rank sends its `dt` to the primary rank (rank 0),
and the primary fails with a user error iff some received `dt` differs
from its own `dt` by more than the comparison tolerance. -/
theorem advance_syncTimestep_spec :
    (∀ isParallel, advanceSyncsTimestep false isParallel = isParallel) ∧
    (∀ dt : ℚ, syncTimestepSecondary dt = [(dt, 0)]) ∧
    (∀ (eps own : ℚ) (receivedDts : List ℚ),
      (syncTimestepPrimary eps own receivedDts = .ok () ↔
        ∀ dt ∈ receivedDts, |dt - own| ≤ eps) ∧
      ((∃ msg, syncTimestepPrimary eps own receivedDts = .error msg) ↔
        ∃ dt ∈ receivedDts, ¬ |dt - own| ≤ eps)) := by
  refine ⟨fun isParallel => by simp [advanceSyncsTimestep], fun dt => rfl, ?_⟩
  intro eps own receivedDts
  have hok : syncTimestepPrimary eps own receivedDts = .ok () ↔
      ∀ dt ∈ receivedDts, |dt - own| ≤ eps := by
    induction receivedDts with
    | nil => simp [syncTimestepPrimary]
    | cons dt rest ih =>
      unfold syncTimestepPrimary
      by_cases h : mathEquals dt own eps = true
      · rw [if_pos h]
        rw [mathEquals, decide_eq_true_eq] at h
        simp [ih, h]
      · rw [if_neg h]
        rw [mathEquals, decide_eq_true_eq] at h
        constructor
        · intro hcontra
          exact absurd hcontra (by simp)
        · intro hall
          exact absurd (hall dt (by simp)) h
  refine ⟨hok, ?_⟩
  constructor
  · rintro ⟨msg, hmsg⟩
    by_contra hno
    push_neg at hno
    have := hok.mpr hno
    rw [this] at hmsg
    exact absurd hmsg (by simp)
  · rintro ⟨dt, hmem, hfar⟩
    rcases hres : syncTimestepPrimary eps own receivedDts with msg | u
    · exact ⟨msg, rfl⟩
    · cases u
      exact absurd (hok.mp hres dt hmem) hfar

/-- Witness for C9 (amended theorem) at a concrete input: with tolerance
`1/100`, receiving `dt = 2` against own `dt = 1` errors. -/
theorem advance_syncTimestep_spec_witness :
    ∃ msg, syncTimestepPrimary (1 / 100) 1 [1, 2] = .error msg :=
  (advance_syncTimestep_spec.2.2 (1 / 100) 1 [1, 2]).2.mpr
    ⟨2, by norm_num⟩

/-! ## Serial scheme: second participant's concluding receive
(`SerialCouplingScheme::exchangeDataAndAccelerate`) -/

/-- Communication events of the second participant's branch of
`SerialCouplingScheme::exchangeDataAndAccelerate`. -/
inductive SerialEvent
  | sendConvergence (converged : Bool)
  | sendData
  | sendGlobalData
  | receiveTimeWindowSize
  | receiveData
  | receiveGlobalData
deriving DecidableEq, Repr

/-- The second-participant (`else`) branch of
`SerialCouplingScheme::exchangeDataAndAccelerate` (part_003, lines
343-381): for an implicit scheme run `doImplicitStep` (its verdict is
`implicitStepConverged`) and send the verdict, send the coupling data, and
perform the concluding receive only when
`isCouplingOngoing() || (isImplicitCouplingScheme() && not convergence)`.
Returns the ordered event trace and the returned `convergence` value. -/
def serialSecondParticipantExchange (isImplicit implicitStepConverged
    couplingOngoing : Bool) : List SerialEvent × Bool :=
  let convergence := true
  let stepResult :=
    if isImplicit then
      ([SerialEvent.sendConvergence implicitStepConverged],
        implicitStepConverged)
    else ([], convergence)
  let events := stepResult.1 ++ [SerialEvent.sendData,
    SerialEvent.sendGlobalData]
  let convergence := stepResult.2
  if couplingOngoing || (isImplicit && !convergence) then
    (events ++ [SerialEvent.receiveTimeWindowSize, SerialEvent.receiveData,
      SerialEvent.receiveGlobalData], convergence)
  else
    (events, convergence)

/-- C10: the second participant, after sending its data in
`exchangeDataAndAccelerate`, performs the concluding receive of the time
window size and the coupling data iff the coupling is still ongoing or the
implicit iteration did not converge; in particular, in the final converged
iteration of the last time window it never receives. -/
theorem serialSecond_receive_guard_spec (isImplicit implicitStepConverged
    couplingOngoing : Bool) :
    ((SerialEvent.receiveTimeWindowSize ∈
        (serialSecondParticipantExchange isImplicit implicitStepConverged
          couplingOngoing).1 ∧
      SerialEvent.receiveData ∈
        (serialSecondParticipantExchange isImplicit implicitStepConverged
          couplingOngoing).1) ↔
      (couplingOngoing = true ∨
        (isImplicit = true ∧ implicitStepConverged = false))) ∧
    (couplingOngoing = false → (isImplicit = true →
        implicitStepConverged = true) →
      SerialEvent.receiveTimeWindowSize ∉
        (serialSecondParticipantExchange isImplicit implicitStepConverged
          couplingOngoing).1 ∧
      SerialEvent.receiveData ∉
        (serialSecondParticipantExchange isImplicit implicitStepConverged
          couplingOngoing).1) := by
  rcases isImplicit with _ | _ <;>
    rcases implicitStepConverged with _ | _ <;>
    rcases couplingOngoing with _ | _ <;>
    refine ⟨by decide, by decide⟩

/-- Witness for C10: an implicit converged iteration with the coupling no
longer ongoing performs no concluding receive. -/
theorem serialSecond_receive_guard_spec_witness :
    SerialEvent.receiveTimeWindowSize ∉
      (serialSecondParticipantExchange true true false).1 ∧
    SerialEvent.receiveData ∉
      (serialSecondParticipantExchange true true false).1 :=
  (serialSecond_receive_guard_spec true true false).2 rfl (fun _ => rfl)

end Precice
